import Mathlib

/-!
Verification development for the kueue distributed job queue.

The definitions below are a shallow embedding of the Rust sources:
* `src/bin/kueue_server/job_manager/manager.rs` (the server-side `Manager`),
* `src/worker/common.rs` (the worker-side controller `Worker<Stream>`),
* `src/messages/stream.rs` (the JSON message framing layer `MessageStream`).

Machine integers (`u64`, `i64`) are embedded as `Nat` / `Int`; none of the
embedded computations can overflow in a way relevant to the stated
properties.  The `f64` load-average and scale-factor values are idealised
as exact nonnegative rationals represented by numerator/denominator pairs.
Rust `Vec` and iteration order are embedded as `List`; `BTreeSet<u64>` is
embedded as a strictly sorted `List Nat`; `HashMap<u64, _>` as an
association list queried with `find?`.  A Rust `panic!` / failed `assert!`
/ `unwrap` on `None` is embedded by an `Option` result where `none` marks
the panic.  `tokio::sync::Notify` is embedded as a boolean "a permit is
stored" flag.  Network sends are embedded as a trace of emitted messages.
-/

namespace Kueue

/-! ## Server-side job manager (`job_manager/manager.rs`) -/

/-- Modelled from the spec: the `Job` struct of the server's `job_manager`
module is not among the given sources (only `manager.rs` is).  Per the spec a
job carries a monotonically assigned id, the command and the working
directory; the remaining fields (status, resources, timestamps) play no role
in the manager operations embedded here. -/
structure Job where
  id : Nat
  cmd : List String
  cwd : String
deriving Repr, DecidableEq

/-- Insertion into a `BTreeSet<u64>` embedded as a strictly sorted list. -/
def btreeSetInsert (x : Nat) : List Nat → List Nat
  | [] => [x]
  | y :: ys =>
    if x < y then x :: y :: ys
    else if x = y then y :: ys
    else y :: btreeSetInsert x ys

/-- Lookup in a `HashMap<u64, Job>` embedded as an association list. -/
def lookupJob (jobs : List (Nat × Job)) (id : Nat) : Option Job :=
  (jobs.find? (fun p => p.1 = id)).map Prod.snd

/-- The server-side `Manager` state (`manager.rs`, lines 10-15).  The
`workers` registry is omitted: no embedded claim concerns it.  The
`new_jobs : Arc<Notify>` notifier is embedded by the boolean
`new_jobs_signaled`, true when the notifier holds a stored permit.  The
fresh-id counter used by `Job::new` (a static counter in the missing
`job_manager::job` module; the spec says ids come from a monotonically
increasing counter) is embedded as the field `next_job_id`. -/
structure Manager where
  jobs : List (Nat × Job)
  jobs_waiting_for_assignment : List Nat
  new_jobs_signaled : Bool
  next_job_id : Nat
deriving Repr, DecidableEq

/-- `Manager::new` (manager.rs, lines 18-25): all containers empty. -/
def Manager.new : Manager :=
  { jobs := [], jobs_waiting_for_assignment := [], new_jobs_signaled := false,
    next_job_id := 0 }

/-- `Manager::add_new_job` (manager.rs, lines 37-44): create the job with a
fresh id, insert it into the `jobs` map and into
`jobs_waiting_for_assignment`, and return it.  The function body contains no
call on the `new_jobs` notifier, so the signal flag is left untouched. -/
def Manager.add_new_job (m : Manager) (cmd : List String) (cwd : String) :
    Job × Manager :=
  let job : Job := { id := m.next_job_id, cmd := cmd, cwd := cwd }
  (job,
    { m with
      jobs := (job.id, job) :: m.jobs,
      jobs_waiting_for_assignment :=
        btreeSetInsert job.id m.jobs_waiting_for_assignment,
      next_job_id := m.next_job_id + 1 })

/-- `Manager::get_job_waiting_for_assignment` (manager.rs, lines 80-99).
The outer `none` embeds the panic of the `unwrap` on `self.jobs.get`;
`some (none, m)` embeds the `None` return with the state unchanged. -/
def Manager.get_job_waiting_for_assignment (m : Manager)
    (exclude : List Nat) : Option (Option Job × Manager) :=
  if m.jobs_waiting_for_assignment.isEmpty then
    some (none, m)
  else
    match m.jobs_waiting_for_assignment.find?
        (fun job_id => !(exclude.contains job_id)) with
    | some job_id =>
      match lookupJob m.jobs job_id with
      | some job =>
        some (some job,
          { m with jobs_waiting_for_assignment :=
              m.jobs_waiting_for_assignment.erase job_id })
      | none => none
    | none => some (none, m)

/-- The `BTreeSet` representation invariant: the waiting list is strictly
ascending (hence duplicate-free). -/
def WaitingSorted (m : Manager) : Prop :=
  m.jobs_waiting_for_assignment.Pairwise (· < ·)

/-- Every waiting id is a key of the `jobs` map. -/
def WaitingInJobs (m : Manager) : Prop :=
  ∀ id ∈ m.jobs_waiting_for_assignment, (lookupJob m.jobs id).isSome

/-- Every entry of the `jobs` map is stored under its own id. -/
def JobsKeyed (m : Manager) : Prop :=
  ∀ p ∈ m.jobs, (p : Nat × Job).2.id = p.1

instance (m : Manager) : Decidable (WaitingSorted m) := by
  unfold WaitingSorted; infer_instance

instance (m : Manager) : Decidable (WaitingInJobs m) := by
  unfold WaitingInJobs; exact List.decidableBAll _ _

instance (m : Manager) : Decidable (JobsKeyed m) := by
  unfold JobsKeyed; exact List.decidableBAll _ _

/-! ## Worker-side controller (`worker/common.rs`) -/

/-- A nonnegative rational `num / den` (with `den` intended positive),
idealising the `f64` values (load averages, the CPU load scale factor)
appearing in `worker/common.rs`. -/
structure PosRat where
  num : Nat
  den : Nat
deriving Repr, DecidableEq

/-- `⌈num / den⌉` over the naturals: `f64::ceil` on a nonnegative value. -/
def PosRat.ceil (q : PosRat) : Nat := (q.num + q.den - 1) / q.den

/-- `(n as f64 * q).ceil()` for a natural `n` and nonnegative rational `q`. -/
def PosRat.scaleCeil (n : Nat) (q : PosRat) : Nat :=
  PosRat.ceil { num := n * q.num, den := q.den }

/-- Modelled from the spec: the `Resources` struct lives in the `structs`
module, which is not among the given sources.  Per the spec (§3), required
resources are job-slots, cpus and ram-mb, all unsigned. -/
structure Resources where
  job_slots : Nat
  cpus : Nat
  ram_mb : Nat
deriving Repr, DecidableEq

/-- Modelled from the spec: `Resources::fit_into` lives in the missing
`structs` module.  The spec (§4.3) reads the check as
`j.required ⊆ available`, i.e. componentwise inclusion. -/
def Resources.fit_into (required available : Resources) : Bool :=
  decide (required.job_slots ≤ available.job_slots) &&
  decide (required.cpus ≤ available.cpus) &&
  decide (required.ram_mb ≤ available.ram_mb)

/-- Modelled from the spec: `JobStatus` lives in the missing `structs`
module.  Variants and fields follow the spec (§3) together with the
patterns matched in `worker/common.rs` (lines 487-506): `Running` carries
issue/start data and `Finished` additionally carries the finish time,
return code, worker name, run time and a comment.  Timestamps are embedded
as `Nat`. -/
inductive JobStatus where
  | pending (issued : Nat)
  | offered (issued : Nat) (offered_at : Nat) (to_worker : String)
  | running (issued : Nat) (started : Nat) (on_worker : String)
  | finished (issued : Nat) (started : Nat) (finished_at : Nat)
      (return_code : Int) (worker : String) (run_time_seconds : Int)
      (comment : String)
  | canceled (issued : Nat) (canceled_at : Nat)
deriving Repr, DecidableEq

/-- Modelled from the spec: `JobInfo` lives in the missing `structs` module.
Fields follow the spec (§3) and the accesses in `worker/common.rs`:
`job_id`, `cmd`, `cwd`, the required `worker_resources` and the `status`. -/
structure JobInfo where
  job_id : Nat
  cmd : List String
  cwd : String
  worker_resources : Resources
  status : JobStatus
deriving Repr, DecidableEq

/-- Modelled from the spec: the per-job result mailbox of the missing
`worker::job` module, as read and written by `worker/common.rs`
(fields `finished`, `exit_code`, `run_time`, `comment`, `stdout_text`,
`stderr_text`).  The `chrono::Duration` run time is embedded as its number
of seconds. -/
structure JobResult where
  finished : Bool
  exit_code : Int
  run_time : Int
  comment : String
  stdout_text : String
  stderr_text : String
deriving Repr, DecidableEq

/-- Modelled from the spec: the worker-side `Job` of the missing
`worker::job` module: the job description, the shared result mailbox and
the kill-notification flag (`notify_kill_job`, embedded as a boolean
permit). -/
structure WorkerJob where
  info : JobInfo
  result : JobResult
  notify_kill_job : Bool
deriving Repr, DecidableEq

/-- Modelled from the spec: `Job::new(info, notify)` of the missing
`worker::job` module creates a not-yet-started job, so its result mailbox
is blank: not finished, empty output buffers, zero run time. -/
def WorkerJob.new (info : JobInfo) : WorkerJob :=
  { info := info,
    result :=
      { finished := false, exit_code := 0, run_time := 0, comment := "",
        stdout_text := "", stderr_text := "" },
    notify_kill_job := false }

/-- The worker-relevant configuration settings (`config.worker_settings`)
read by `worker/common.rs`. -/
structure WorkerSettings where
  worker_max_parallel_jobs : Nat
  dynamic_check_free_resources : Bool
  dynamic_cpu_load_scale_factor : PosRat
deriving Repr, DecidableEq

/-- The values delivered by the `sysinfo::System` probes after
`refresh_cpu()` / `refresh_memory()`: cpu count, one-minute load average,
total and available memory (already scaled to MB). -/
structure SystemSnapshot where
  total_cpus : Nat
  load_one : PosRat
  total_ram_mb : Nat
  available_ram_mb : Nat
deriving Repr, DecidableEq

/-- The worker-side controller state `Worker<Stream>` (`worker/common.rs`,
lines 19-41).  The stream, cancellation token, keep-alive channel and
notifier handles are not part of any embedded claim; the system probe
handle is embedded by the `sys` snapshot it yields. -/
structure Worker where
  settings : WorkerSettings
  worker_name : String
  sys : SystemSnapshot
  accepted_jobs : List WorkerJob
  running_jobs : List WorkerJob
deriving Repr, DecidableEq

/-- Sum of required job slots over a list of jobs. -/
def slotsSum (jobs : List WorkerJob) : Nat :=
  (jobs.map (fun job => job.info.worker_resources.job_slots)).sum

/-- Sum of required cpus over a list of jobs (summed as `i64`). -/
def cpusSum (jobs : List WorkerJob) : Int :=
  (jobs.map (fun job => (job.info.worker_resources.cpus : Int))).sum

/-- Sum of required ram over a list of jobs (summed as `i64`). -/
def ramSum (jobs : List WorkerJob) : Int :=
  (jobs.map (fun job => (job.info.worker_resources.ram_mb : Int))).sum

/-- `Worker::get_available_resources` (worker/common.rs, lines 345-413).
The `assert!` on line 357 is embedded by the `none` result.  With dynamic
checking on, the code first takes `load_average().one.ceil() as i64` and
then applies `(busy_cpus as f64 * scale).ceil() as i64` - a second,
separate ceiling. -/
def Worker.get_available_resources (w : Worker) : Option Resources :=
  let allocated_job_slots : Nat := slotsSum (w.accepted_jobs ++ w.running_jobs)
  if w.settings.worker_max_parallel_jobs ≥ allocated_job_slots then
    let available_job_slots : Nat :=
      w.settings.worker_max_parallel_jobs - allocated_job_slots
    let total_cpus : Int := (w.sys.total_cpus : Int)
    let allocated_cpus : Int := cpusSum (w.accepted_jobs ++ w.running_jobs)
    let available_cpus : Int :=
      if w.settings.dynamic_check_free_resources then
        let busy_cpus : Nat := w.sys.load_one.ceil
        let busy_cpus : Nat :=
          PosRat.scaleCeil busy_cpus w.settings.dynamic_cpu_load_scale_factor
        max 0 (total_cpus - max allocated_cpus (busy_cpus : Int))
      else
        max 0 (total_cpus - allocated_cpus)
    let total_ram_mb : Int := (w.sys.total_ram_mb : Int)
    let allocated_ram_mb : Int := ramSum (w.accepted_jobs ++ w.running_jobs)
    let available_ram_mb : Int :=
      if w.settings.dynamic_check_free_resources then
        max 0 (min (total_ram_mb - allocated_ram_mb)
          (w.sys.available_ram_mb : Int))
      else
        max 0 (total_ram_mb - allocated_ram_mb)
    some
      { job_slots := available_job_slots, cpus := available_cpus.toNat,
        ram_mb := available_ram_mb.toNat }
  else
    none

/-- `Worker::resources_available` (worker/common.rs, lines 417-420). -/
def Worker.resources_available (w : Worker) (required : Resources) :
    Option Bool :=
  w.get_available_resources.map (fun available => required.fit_into available)

/-- The worker-to-server messages emitted by the embedded handlers
(`messages/mod.rs`, lines 127-145; variants not sent by the embedded code
are omitted). -/
inductive WorkerToServerMessage where
  | UpdateJobStatus (job_info : JobInfo)
  | UpdateJobResults (job_id : Nat) (stdout_text : Option String)
      (stderr_text : Option String)
  | UpdateResources (resources : Resources)
  | AcceptJobOffer (job_info : JobInfo)
  | DeferJobOffer (job_info : JobInfo)
  | RejectJobOffer (job_info : JobInfo)
deriving Repr, DecidableEq

/-- `Worker::on_offer_job` (worker/common.rs, lines 195-232).  The
filesystem test `job_info.cwd.is_dir()` is embedded by the environment
parameter `is_dir`.  The result is the new state plus the reply sent;
`none` embeds a panic inside the resource computation (unreachable for the
reject branch, which returns before resources are computed). -/
def Worker.on_offer_job (w : Worker) (is_dir : String → Bool)
    (job_info : JobInfo) : Option (Worker × WorkerToServerMessage) :=
  if !(is_dir job_info.cwd) then
    some (w, .RejectJobOffer job_info)
  else
    match w.resources_available job_info.worker_resources with
    | none => none
    | some fits =>
      if fits then
        some
          ({ w with accepted_jobs := w.accepted_jobs ++ [WorkerJob.new job_info] },
            .AcceptJobOffer job_info)
      else
        some (w, .DeferJobOffer job_info)

/-- `Vec::iter().position(p)` followed by `Vec::remove(index)`: extract the
first element satisfying `p`, keeping the order of the rest. -/
def extractFirst (p : α → Bool) : List α → Option (α × List α)
  | [] => none
  | x :: xs =>
    if p x then some (x, xs)
    else (extractFirst p xs).map (fun r => (r.1, x :: r.2))

/-- The terminal-status rewrite of `Worker::update_job_status`
(worker/common.rs, lines 487-506): a `Running` job becomes `Finished` with
the recorded exit code, run time and comment; any other status (in
particular `Canceled`) is left as it is. -/
def finalizeJobInfo (worker_name : String) (now : Nat) (job : WorkerJob) :
    JobInfo :=
  match job.info.status with
  | .running issued started _ =>
    { job.info with
      status := .finished issued started now job.result.exit_code
        worker_name job.result.run_time job.result.comment }
  | _ => job.info

/-- The `Option<String>` sent for an output buffer: `None` when empty
(worker/common.rs, lines 507-512). -/
def optText (s : String) : Option String :=
  if s.isEmpty then none else some s

/-- The body of the `while index < running_jobs.len()` loop of
`Worker::update_job_status` (worker/common.rs, lines 475-538), recursing
over the not-yet-visited suffix.  `kept` is the already-visited prefix of
still-running jobs; the `UpdateResources` snapshot for a finished job is
computed after its removal, with all later jobs still present. -/
def updateJobStatusLoop (settings : WorkerSettings) (worker_name : String)
    (sys : SystemSnapshot) (now : Nat) (accepted : List WorkerJob) :
    List WorkerJob → List WorkerJob →
    Option (List WorkerJob × List WorkerToServerMessage)
  | kept, [] => some (kept, [])
  | kept, job :: rest =>
    if job.result.finished then
      let info := finalizeJobInfo worker_name now job
      match
        (Worker.mk settings worker_name sys accepted
          (kept ++ rest)).get_available_resources with
      | none => none
      | some res =>
        match updateJobStatusLoop settings worker_name sys now accepted
            kept rest with
        | none => none
        | some out =>
          some (out.1,
            WorkerToServerMessage.UpdateJobStatus info ::
            WorkerToServerMessage.UpdateJobResults job.info.job_id
              (optText job.result.stdout_text)
              (optText job.result.stderr_text) ::
            WorkerToServerMessage.UpdateResources res :: out.2)
    else
      updateJobStatusLoop settings worker_name sys now accepted
        (kept ++ [job]) rest

/-- `Worker::update_job_status` (worker/common.rs, lines 473-540): walk
`running_jobs`, report and drop every finished job.  `none` embeds a panic
inside a resource computation; otherwise the new state and the trace of
sent messages are returned. -/
def Worker.update_job_status (w : Worker) (now : Nat) :
    Option (Worker × List WorkerToServerMessage) :=
  (updateJobStatusLoop w.settings w.worker_name w.sys now w.accepted_jobs
      [] w.running_jobs).map
    (fun out => ({ w with running_jobs := out.1 }, out.2))

/-- `Worker::on_confirm_job_offer` (worker/common.rs, lines 235-290).  The
outcome of spawning the child process (`job.run().await`) is external and
passed as the `spawn` parameter.  On spawn failure the code records a
synthetic result (`exit_code = -43`, zero run time, a comment starting
with "Failed to start job: ") and reports it through
`update_job_status`. -/
def Worker.on_confirm_job_offer (w : Worker) (spawn : Except String Unit)
    (now : Nat) (job_info : JobInfo) :
    Option (Worker × List WorkerToServerMessage) :=
  match extractFirst (fun job => job.info.job_id == job_info.job_id)
      w.accepted_jobs with
  | none => some (w, [])
  | some (job, accepted_rest) =>
    let job := { job with info := { job.info with status := job_info.status } }
    match spawn with
    | .ok _ =>
      let w2 :=
        { w with accepted_jobs := accepted_rest,
                 running_jobs := w.running_jobs ++ [job] }
      match w2.get_available_resources with
      | none => none
      | some res => some (w2, [.UpdateResources res])
    | .error e =>
      let job :=
        { job with result :=
            { job.result with
              finished := true
              exit_code := (-43)
              run_time := 0
              comment := "Failed to start job: " ++ e } }
      let w2 :=
        { w with accepted_jobs := accepted_rest,
                 running_jobs := w.running_jobs ++ [job] }
      w2.update_job_status now

/-- `Worker::on_withdraw_job_offer` (worker/common.rs, lines 293-314):
remove the job from `accepted_jobs` if present; in either case the handler
returns `Ok` and sends nothing. -/
def Worker.on_withdraw_job_offer (w : Worker) (job_info : JobInfo) :
    Worker × List WorkerToServerMessage :=
  match extractFirst (fun job => job.info.job_id == job_info.job_id)
      w.accepted_jobs with
  | some r => ({ w with accepted_jobs := r.2 }, [])
  | none => (w, [])

/-- The mutation of `Worker::on_kill_job` on the first running job with the
given id: store a kill permit and overwrite the status; `none` when no job
matches. -/
def killFirst (job_info : JobInfo) : List WorkerJob → Option (List WorkerJob)
  | [] => none
  | job :: rest =>
    if job.info.job_id == job_info.job_id then
      some
        ({ job with
           notify_kill_job := true
           info := { job.info with status := job_info.status } } :: rest)
    else
      (killFirst job_info rest).map (fun out => job :: out)

/-- `Worker::on_kill_job` (worker/common.rs, lines 317-342): signal the
kill and update the status in place; an unknown id is logged and ignored.
The handler returns `Ok` and sends nothing in both cases. -/
def Worker.on_kill_job (w : Worker) (job_info : JobInfo) :
    Worker × List WorkerToServerMessage :=
  match killFirst job_info w.running_jobs with
  | some running2 => ({ w with running_jobs := running2 }, [])
  | none => (w, [])

/-! ## Message framing layer (`messages/stream.rs`)

The underlying TCP stream is embedded by the list `pending` of bytes it
still holds; a `read` into the read buffer delivers
`min read_buffer_len pending.length` bytes (the largest amount the buffer
can take).  Only the length of the read buffer is observable, so it is
embedded by `read_buffer_len`.  The serde_json streaming deserializer is
external to this repository and is embedded by the `parse` parameter: on a
buffer holding a complete leading JSON value it reports the number of bytes
that value occupies. -/

/-- `INIT_READ_BUFFER_LEN` (messages/stream.rs, line 29). -/
def INIT_READ_BUFFER_LEN : Nat := 32 * 1024

/-- The observable state of `MessageStream` (messages/stream.rs, lines
13-23) together with the bytes still pending on the underlying stream. -/
structure MessageStream where
  pending : List Nat
  read_buffer_len : Nat
  msg_buffer : List Nat
deriving Repr, DecidableEq

/-- `MessageStream::new` (messages/stream.rs, lines 33-39). -/
def MessageStream.new (pending : List Nat) : MessageStream :=
  { pending := pending, read_buffer_len := INIT_READ_BUFFER_LEN,
    msg_buffer := [] }

/-- Outcome of one `parse_message` attempt (messages/stream.rs, lines
100-128): a complete leading value of the given byte length, an incomplete
prefix, or a syntax error. -/
inductive ParseOutcome where
  | ok (bytes_consumed : Nat)
  | eofWhileParsing
  | parsingFailed
deriving Repr, DecidableEq

/-- Result of `MessageStream::receive`: the bytes of the received message,
or one of the `MessageError` outcomes. -/
inductive ReceiveOutcome where
  | ok (message_bytes : List Nat)
  | receiveFailed
  | streamClosed
deriving Repr, DecidableEq

/-- One iteration of the `loop` in `MessageStream::receive` either returns
or continues with an updated state. -/
inductive StepResult where
  | done (out : ReceiveOutcome) (st : MessageStream)
  | again (st : MessageStream)
deriving Repr, DecidableEq

/-- One iteration of `MessageStream::receive` (messages/stream.rs, lines
61-94): try to parse; on success drain exactly the consumed bytes; on a
syntax error give up; otherwise read from the stream, append the bytes read
to `msg_buffer`, and double the read buffer when the read filled it
entirely.  A read of zero bytes ends the loop with `StreamClosed`. -/
def receiveStep (parse : List Nat → ParseOutcome) (st : MessageStream) :
    StepResult :=
  match parse st.msg_buffer with
  | .ok n =>
    .done (.ok (st.msg_buffer.take n)) { st with msg_buffer := st.msg_buffer.drop n }
  | .parsingFailed => .done .receiveFailed st
  | .eofWhileParsing =>
    let bytes_read := min st.read_buffer_len st.pending.length
    if bytes_read = 0 then
      .done .streamClosed st
    else
      .again
        { pending := st.pending.drop bytes_read,
          read_buffer_len :=
            if bytes_read = st.read_buffer_len then st.read_buffer_len * 2
            else st.read_buffer_len,
          msg_buffer := st.msg_buffer ++ st.pending.take bytes_read }

/-- The `loop` of `MessageStream::receive`, with explicit fuel; every
continued iteration consumes at least one pending byte, so
`pending.length + 1` units of fuel always suffice. -/
def receiveAux (parse : List Nat → ParseOutcome) :
    Nat → MessageStream → Option (ReceiveOutcome × MessageStream)
  | 0, _ => none
  | fuel + 1, st =>
    match receiveStep parse st with
    | .done out st2 => some (out, st2)
    | .again st2 => receiveAux parse fuel st2

/-- `MessageStream::receive` (messages/stream.rs, lines 60-95). -/
def MessageStream.receive (parse : List Nat → ParseOutcome)
    (st : MessageStream) : Option (ReceiveOutcome × MessageStream) :=
  receiveAux parse (st.pending.length + 1) st

/-! ## Helper lemmas -/

theorem btreeSetInsert_mem (a x : Nat) :
    ∀ l : List Nat, x ∈ btreeSetInsert a l ↔ x = a ∨ x ∈ l := by
  intro l
  induction l with
  | nil => simp [btreeSetInsert]
  | cons y ys ih =>
    unfold btreeSetInsert
    by_cases hlt : a < y
    · rw [if_pos hlt]
      simp [List.mem_cons]
    · rw [if_neg hlt]
      by_cases heq : a = y
      · rw [if_pos heq]
        subst heq
        simp only [List.mem_cons]
        tauto
      · rw [if_neg heq]
        simp only [List.mem_cons, ih]
        tauto

theorem lookupJob_cons (k : Nat) (j : Job) (jobs : List (Nat × Job))
    (id : Nat) :
    lookupJob ((k, j) :: jobs) id =
      if k = id then some j else lookupJob jobs id := by
  unfold lookupJob
  rw [List.find?_cons]
  by_cases h : k = id
  · subst h
    simp
  · simp [h]

theorem lookupJob_keyed (jobs : List (Nat × Job)) (id : Nat) (job : Job)
    (hkeys : ∀ p ∈ jobs, (p : Nat × Job).2.id = p.1)
    (h : lookupJob jobs id = some job) : job.id = id := by
  unfold lookupJob at h
  cases hfind : jobs.find? (fun p => p.1 = id) with
  | none => rw [hfind] at h; simp at h
  | some p =>
    rw [hfind] at h
    have hj : p.2 = job := by simpa using h
    have hp := List.find?_some hfind
    have hmem : p ∈ jobs := List.mem_of_find?_eq_some hfind
    have := hkeys p hmem
    simp only [decide_eq_true_eq] at hp
    rw [← hj]
    omega

theorem find?_min_of_sorted (p : Nat → Bool) :
    ∀ l : List Nat, l.Pairwise (· < ·) → ∀ a, l.find? p = some a →
      ∀ x ∈ l, p x → a ≤ x := by
  intro l
  induction l with
  | nil => intro _ a h; simp at h
  | cons y ys ih =>
    intro hsort a hfind x hx hpx
    rw [List.find?_cons] at hfind
    rcases List.pairwise_cons.mp hsort with ⟨hy, hys⟩
    cases hpy : p y with
    | true =>
      rw [hpy] at hfind
      simp only [Option.some.injEq] at hfind
      subst hfind
      rcases List.mem_cons.mp hx with h | h
      · omega
      · exact Nat.le_of_lt (hy x h)
    | false =>
      rw [hpy] at hfind
      rcases List.mem_cons.mp hx with h | h
      · subst h; rw [hpx] at hpy; cases hpy
      · exact ih hys a hfind x h hpx

theorem extractFirst_eq_none {α : Type} (p : α → Bool) :
    ∀ l : List α, (∀ x ∈ l, p x = false) → extractFirst p l = none := by
  intro l
  induction l with
  | nil => intro _; rfl
  | cons y ys ih =>
    intro h
    have hy := h y (List.mem_cons_self y ys)
    simp only [extractFirst, hy]
    rw [ih (fun x hx => h x (List.mem_cons_of_mem y hx))]
    simp

theorem extractFirst_slotsSum (p : WorkerJob → Bool) :
    ∀ (l : List WorkerJob) (x : WorkerJob) (rest : List WorkerJob),
      extractFirst p l = some (x, rest) →
      slotsSum l = x.info.worker_resources.job_slots + slotsSum rest := by
  intro l
  induction l with
  | nil => intro x rest h; simp [extractFirst] at h
  | cons y ys ih =>
    intro x rest h
    by_cases hy : p y
    · simp only [extractFirst, if_pos hy] at h
      cases h
      simp [slotsSum]
    · simp only [extractFirst, if_neg hy] at h
      cases hx : extractFirst p ys with
      | none => rw [hx] at h; simp at h
      | some r =>
        rw [hx] at h
        have h2 : (r.1, y :: r.2) = (x, rest) := by simpa using h
        cases h2
        have := ih r.1 r.2 (by rw [hx])
        simp only [slotsSum, List.map_cons, List.sum_cons] at *
        omega

theorem killFirst_eq_none (job_info : JobInfo) :
    ∀ l : List WorkerJob,
      (∀ x ∈ l, x.info.job_id ≠ job_info.job_id) →
      killFirst job_info l = none := by
  intro l
  induction l with
  | nil => intro _; rfl
  | cons y ys ih =>
    intro h
    have hy : (y.info.job_id == job_info.job_id) = false := by
      simp only [beq_eq_false_iff_ne, ne_eq]
      exact h y (List.mem_cons_self y ys)
    unfold killFirst
    rw [hy]
    rw [if_neg (by simp)]
    rw [ih (fun x hx => h x (List.mem_cons_of_mem y hx))]
    rfl

theorem slotsSum_append (a b : List WorkerJob) :
    slotsSum (a ++ b) = slotsSum a + slotsSum b := by
  simp [slotsSum]

theorem getAvailableResources_isSome (w : Worker)
    (h : slotsSum (w.accepted_jobs ++ w.running_jobs) ≤
      w.settings.worker_max_parallel_jobs) :
    ∃ res, w.get_available_resources = some res := by
  unfold Worker.get_available_resources
  rw [if_pos h]
  exact ⟨_, rfl⟩

/-- A one-job manager, as built by the `get_job_waiting_for_assignment`
unit test in manager.rs (lines 123-145). -/
def exampleManager : Manager :=
  (Manager.new.add_new_job ["ls", "-la"] "/tmp").2

/-! ## Claims about the job manager -/

/-- C1: `get_job_waiting_for_assignment` returns the job stored under the
smallest waiting id outside the exclude set and removes exactly that id
from the waiting set; when every waiting id is excluded (in particular when
nothing waits) it returns `None` and leaves the manager unchanged.  The
hypotheses are the `BTreeSet` / `HashMap` representation invariants. -/
theorem claim_C1 (m : Manager) (exclude : List Nat)
    (hsort : WaitingSorted m) (hsub : WaitingInJobs m) (hkeys : JobsKeyed m) :
    ((∃ id ∈ m.jobs_waiting_for_assignment, id ∉ exclude) →
      ∃ jid job m2,
        m.get_job_waiting_for_assignment exclude = some (some job, m2) ∧
        jid ∈ m.jobs_waiting_for_assignment ∧ jid ∉ exclude ∧
        (∀ x ∈ m.jobs_waiting_for_assignment, x ∉ exclude → jid ≤ x) ∧
        lookupJob m.jobs jid = some job ∧ job.id = jid ∧
        m2.jobs = m.jobs ∧ m2.new_jobs_signaled = m.new_jobs_signaled ∧
        m2.jobs_waiting_for_assignment =
          m.jobs_waiting_for_assignment.erase jid ∧
        (∀ x, x ∈ m2.jobs_waiting_for_assignment ↔
          (x ∈ m.jobs_waiting_for_assignment ∧ x ≠ jid))) ∧
    ((∀ id ∈ m.jobs_waiting_for_assignment, id ∈ exclude) →
      m.get_job_waiting_for_assignment exclude = some (none, m)) := by
  constructor
  · rintro ⟨id0, hid0, hid0x⟩
    have hne : ¬(m.jobs_waiting_for_assignment.isEmpty = true) := by
      intro hnil
      rw [List.isEmpty_iff] at hnil
      rw [hnil] at hid0
      cases hid0
    obtain ⟨jid, hfind⟩ : ∃ jid,
        m.jobs_waiting_for_assignment.find?
          (fun job_id => !(exclude.contains job_id)) = some jid := by
      cases hf : m.jobs_waiting_for_assignment.find?
          (fun job_id => !(exclude.contains job_id)) with
      | none =>
        exfalso
        rw [List.find?_eq_none] at hf
        have := hf id0 hid0
        simp [hid0x] at this
      | some jid => exact ⟨jid, rfl⟩
    have hjidmem := List.mem_of_find?_eq_some hfind
    have hjidp := List.find?_some hfind
    have hjidx : jid ∉ exclude := by simpa using hjidp
    obtain ⟨job, hjob⟩ : ∃ job, lookupJob m.jobs jid = some job := by
      have hlk := hsub jid hjidmem
      cases hl : lookupJob m.jobs jid with
      | none => rw [hl] at hlk; cases hlk
      | some j => exact ⟨j, rfl⟩
    have hnodup : m.jobs_waiting_for_assignment.Nodup :=
      List.Pairwise.imp (fun h => Nat.ne_of_lt h) hsort
    have hval : m.get_job_waiting_for_assignment exclude =
        some (some job,
          { m with jobs_waiting_for_assignment :=
              m.jobs_waiting_for_assignment.erase jid }) := by
      unfold Manager.get_job_waiting_for_assignment
      rw [if_neg hne]
      simp only [hfind, hjob]
    refine ⟨jid, job, _, hval, hjidmem, hjidx, ?_, hjob,
      lookupJob_keyed m.jobs jid job hkeys hjob, rfl, rfl, rfl, ?_⟩
    · intro x hx hxex
      refine find?_min_of_sorted _ _ hsort jid hfind x hx ?_
      simp [hxex]
    · intro x
      show x ∈ m.jobs_waiting_for_assignment.erase jid ↔ _
      constructor
      · intro hx
        have h2 := hnodup.mem_erase_iff.mp hx
        exact ⟨h2.2, h2.1⟩
      · intro hx
        exact hnodup.mem_erase_iff.mpr ⟨hx.2, hx.1⟩
  · intro hall
    unfold Manager.get_job_waiting_for_assignment
    by_cases hemp : m.jobs_waiting_for_assignment.isEmpty = true
    · rw [if_pos hemp]
    · rw [if_neg hemp]
      have hfind : m.jobs_waiting_for_assignment.find?
          (fun job_id => !(exclude.contains job_id)) = none := by
        rw [List.find?_eq_none]
        intro x hx
        simp [hall x hx]
      rw [hfind]

theorem claim_C1_witness :
    (exampleManager.get_job_waiting_for_assignment [0] =
      some (none, exampleManager)) ∧
    (∃ jid job m2,
      exampleManager.get_job_waiting_for_assignment [] =
        some (some job, m2) ∧
      jid ∈ exampleManager.jobs_waiting_for_assignment ∧
      jid ∉ ([] : List Nat) ∧
      (∀ x ∈ exampleManager.jobs_waiting_for_assignment,
        x ∉ ([] : List Nat) → jid ≤ x) ∧
      lookupJob exampleManager.jobs jid = some job ∧ job.id = jid ∧
      m2.jobs = exampleManager.jobs ∧
      m2.new_jobs_signaled = exampleManager.new_jobs_signaled ∧
      m2.jobs_waiting_for_assignment =
        exampleManager.jobs_waiting_for_assignment.erase jid ∧
      (∀ x, x ∈ m2.jobs_waiting_for_assignment ↔
        (x ∈ exampleManager.jobs_waiting_for_assignment ∧ x ≠ jid))) := by
  constructor
  · exact (claim_C1 exampleManager [0] (by decide) (by decide)
      (by decide)).2 (by decide)
  · exact (claim_C1 exampleManager [] (by decide) (by decide)
      (by decide)).1 (by decide)

/-- C3 counterexample: on the second source line of the claim the code
disagrees.  Starting from the fresh manager (notifier unsignaled),
`add_new_job` makes the waiting set gain member 0, yet the `new_jobs`
notifier is still unsignaled afterwards: the function body (manager.rs,
lines 37-44) contains no `notify` call. -/
theorem claim_C3_counterexample :
    Manager.new.jobs_waiting_for_assignment = [] ∧
    Manager.new.new_jobs_signaled = false ∧
    (Manager.new.add_new_job ["ls", "-la"] "/tmp").2.jobs_waiting_for_assignment
      = [0] ∧
    (Manager.new.add_new_job ["ls", "-la"] "/tmp").2.new_jobs_signaled
      = false := by
  decide

/-- C3 (amended): `add_new_job` inserts the new job into the jobs map and
adds its id to `jobs_waiting_for_assignment`, but it does not signal the
`new_jobs` notifier - the manager merely hands the notifier out through
`new_jobs()`, and the signal state is unchanged by `add_new_job`. -/
theorem claim_C3 (m : Manager) (cmd : List String) (cwd : String) :
    lookupJob (m.add_new_job cmd cwd).2.jobs (m.add_new_job cmd cwd).1.id =
      some (m.add_new_job cmd cwd).1 ∧
    ((m.add_new_job cmd cwd).1.id ∈
      (m.add_new_job cmd cwd).2.jobs_waiting_for_assignment) ∧
    (∀ x, x ∈ (m.add_new_job cmd cwd).2.jobs_waiting_for_assignment ↔
      (x = (m.add_new_job cmd cwd).1.id ∨
        x ∈ m.jobs_waiting_for_assignment)) ∧
    (m.add_new_job cmd cwd).2.new_jobs_signaled = m.new_jobs_signaled := by
  refine ⟨?_, ?_, ?_, rfl⟩
  · show lookupJob ((m.next_job_id, _) :: m.jobs) m.next_job_id = _
    rw [lookupJob_cons]
    rw [if_pos rfl]
    rfl
  · exact (btreeSetInsert_mem _ _ _).mpr (Or.inl rfl)
  · intro x
    exact btreeSetInsert_mem _ x _

/-- C10: `jobs_waiting_for_assignment ⊆ dom jobs` is preserved by
`add_new_job` and by `get_job_waiting_for_assignment`, and under it the
`unwrap` in `get_job_waiting_for_assignment` cannot panic: the call always
returns (`some`), yielding `None` or a job stored in the jobs map. -/
theorem claim_C10 (m : Manager) (cmd : List String) (cwd : String)
    (exclude : List Nat) (hinv : WaitingInJobs m) :
    WaitingInJobs (m.add_new_job cmd cwd).2 ∧
    ∃ r m2, m.get_job_waiting_for_assignment exclude = some (r, m2) ∧
      WaitingInJobs m2 ∧
      ∀ job, r = some job → ∃ id, lookupJob m2.jobs id = some job := by
  constructor
  · intro id hid
    have hmem := (btreeSetInsert_mem m.next_job_id id
      m.jobs_waiting_for_assignment).mp hid
    show (lookupJob ((m.next_job_id, _) :: m.jobs) id).isSome = true
    rw [lookupJob_cons]
    by_cases h : m.next_job_id = id
    · rw [if_pos h]; rfl
    · rw [if_neg h]
      rcases hmem with h2 | h2
      · exact absurd h2.symm h
      · exact hinv id h2
  · unfold Manager.get_job_waiting_for_assignment
    by_cases hemp : m.jobs_waiting_for_assignment.isEmpty = true
    · rw [if_pos hemp]
      exact ⟨none, m, rfl, hinv, by intro _ h; cases h⟩
    · rw [if_neg hemp]
      cases hfind : m.jobs_waiting_for_assignment.find?
          (fun job_id => !(exclude.contains job_id)) with
      | none => exact ⟨none, m, rfl, hinv, by intro _ h; cases h⟩
      | some jid =>
        have hjidmem := List.mem_of_find?_eq_some hfind
        obtain ⟨job, hjob⟩ : ∃ job, lookupJob m.jobs jid = some job := by
          have hlk := hinv jid hjidmem
          cases hl : lookupJob m.jobs jid with
          | none => rw [hl] at hlk; cases hlk
          | some j => exact ⟨j, rfl⟩
        refine ⟨some job,
          { m with jobs_waiting_for_assignment :=
              m.jobs_waiting_for_assignment.erase jid }, ?_, ?_, ?_⟩
        · simp only [hjob]
        · intro id hid
          exact hinv id (List.mem_of_mem_erase hid)
        · intro j hj
          cases hj
          exact ⟨jid, hjob⟩

theorem claim_C10_witness :
    WaitingInJobs exampleManager ∧
    (WaitingInJobs (exampleManager.add_new_job ["pwd"] "/x").2 ∧
      ∃ r m2, exampleManager.get_job_waiting_for_assignment [] =
          some (r, m2) ∧
        WaitingInJobs m2 ∧
        ∀ job, r = some job → ∃ id, lookupJob m2.jobs id = some job) :=
  ⟨by decide, claim_C10 exampleManager ["pwd"] "/x" [] (by decide)⟩

/-! ## Claims about the worker controller -/

/-- A small resource demand used by the concrete scenarios. -/
def exampleResources : Resources := { job_slots := 1, cpus := 1, ram_mb := 10 }

/-- A job offer used by the concrete scenarios. -/
def exampleJobInfo : JobInfo :=
  { job_id := 0, cmd := ["sleep", "1"], cwd := "/tmp",
    worker_resources := exampleResources, status := .pending 0 }

/-- The worker of the claim C2 scenario: dynamic mode on,
`load_1min = 3.2` (= 16/5), `scale = 1.0`, `total_cpus = 4`, one accepted
1-cpu job, so `allocated_cpus = 1`. -/
def loadedWorker : Worker :=
  { settings :=
      { worker_max_parallel_jobs := 4, dynamic_check_free_resources := true,
        dynamic_cpu_load_scale_factor := { num := 1, den := 1 } },
    worker_name := "worker1",
    sys :=
      { total_cpus := 4, load_one := { num := 16, den := 5 },
        total_ram_mb := 1000, available_ram_mb := 800 },
    accepted_jobs := [WorkerJob.new exampleJobInfo],
    running_jobs := [] }

/-- `loadedWorker` with dynamic resource checking turned off. -/
def staticWorker : Worker :=
  { loadedWorker with settings :=
      { loadedWorker.settings with dynamic_check_free_resources := false } }

/-- A worker separating the double ceiling computed by the code from the
single ceiling written in the spec: `load_1min = 2.5`, `scale = 2.0`,
`total_cpus = 8`, nothing allocated. -/
def scaledWorker : Worker :=
  { settings :=
      { worker_max_parallel_jobs := 4, dynamic_check_free_resources := true,
        dynamic_cpu_load_scale_factor := { num := 2, den := 1 } },
    worker_name := "worker2",
    sys :=
      { total_cpus := 8, load_one := { num := 5, den := 2 },
        total_ram_mb := 1000, available_ram_mb := 800 },
    accepted_jobs := [], running_jobs := [] }

/-- Follows the spec's words (§4.3): `busy_cpus = ⌈load_1min × scale⌉` - a
single ceiling of the exact product - stated for comparison with the
code's computation. -/
def busyCpusSpecWords (load scale : PosRat) : Nat :=
  PosRat.ceil { num := load.num * scale.num, den := load.den * scale.den }

/-- Follows the spec's words (§4.3):
`available_cpus = max(0, total − max(allocated, ⌈load_1min × scale⌉))`. -/
def availableCpusSpecWords (total_cpus : Nat) (allocated_cpus : Int)
    (load scale : PosRat) : Int :=
  max 0 ((total_cpus : Int) -
    max allocated_cpus (busyCpusSpecWords load scale : Int))

/-- C2 counterexample: with dynamic checking on, `load_1min = 2.5`,
`scale = 2.0`, `total_cpus = 8` and nothing allocated, the code returns
2 available cpus (it scales the already-rounded `⌈2.5⌉ = 3` and gets
`⌈3 × 2⌉ = 6`), while the claimed formula `⌈load_1min × scale⌉ = ⌈5⌉ = 5`
would give 3. -/
theorem claim_C2_counterexample :
    scaledWorker.settings.dynamic_check_free_resources = true ∧
    scaledWorker.get_available_resources.map Resources.cpus = some 2 ∧
    availableCpusSpecWords scaledWorker.sys.total_cpus
      (cpusSum (scaledWorker.accepted_jobs ++ scaledWorker.running_jobs))
      scaledWorker.sys.load_one
      scaledWorker.settings.dynamic_cpu_load_scale_factor = 3 := by
  decide

/-- C2 (amended): with dynamic checking enabled the code computes
`busy_cpus = ⌈⌈load_1min⌉ × scale⌉` (the load average is rounded up
before the scale factor is applied) and returns
`available_cpus = max(0, total − max(allocated, busy))`; with dynamic
checking disabled it returns `max(0, total − allocated)`.  At the claim's
instance (`load_1min = 3.2`, `scale = 1.0`, `total_cpus = 4`,
`allocated_cpus = 1`) the result is 0 available cpus. -/
theorem claim_C2 (w : Worker)
    (hassert : slotsSum (w.accepted_jobs ++ w.running_jobs) ≤
      w.settings.worker_max_parallel_jobs) :
    (w.settings.dynamic_check_free_resources = true →
      ∃ res, w.get_available_resources = some res ∧
        (res.cpus : Int) =
          max 0 ((w.sys.total_cpus : Int) -
            max (cpusSum (w.accepted_jobs ++ w.running_jobs))
              ((PosRat.scaleCeil w.sys.load_one.ceil
                w.settings.dynamic_cpu_load_scale_factor : Nat) : Int))) ∧
    (w.settings.dynamic_check_free_resources = false →
      ∃ res, w.get_available_resources = some res ∧
        (res.cpus : Int) =
          max 0 ((w.sys.total_cpus : Int) -
            cpusSum (w.accepted_jobs ++ w.running_jobs))) ∧
    loadedWorker.get_available_resources.map Resources.cpus = some 0 := by
  refine ⟨?_, ?_, by decide⟩
  · intro hdyn
    unfold Worker.get_available_resources
    rw [if_pos hassert, hdyn]
    simp only [if_true]
    exact ⟨_, rfl, Int.toNat_of_nonneg (le_max_left 0 _)⟩
  · intro hdyn
    unfold Worker.get_available_resources
    rw [if_pos hassert, hdyn]
    simp only [if_false]
    exact ⟨_, rfl, Int.toNat_of_nonneg (le_max_left 0 _)⟩

theorem claim_C2_witness :
    (slotsSum (loadedWorker.accepted_jobs ++ loadedWorker.running_jobs) ≤
      loadedWorker.settings.worker_max_parallel_jobs) ∧
    (∃ res, loadedWorker.get_available_resources = some res ∧
      (res.cpus : Int) =
        max 0 ((loadedWorker.sys.total_cpus : Int) -
          max (cpusSum (loadedWorker.accepted_jobs ++
              loadedWorker.running_jobs))
            ((PosRat.scaleCeil loadedWorker.sys.load_one.ceil
              loadedWorker.settings.dynamic_cpu_load_scale_factor : Nat) :
              Int))) :=
  ⟨by decide, (claim_C2 loadedWorker (by decide)).1 (by decide)⟩

/-- C6: whenever the allocated job slots over accepted and running jobs do
not exceed `worker_max_parallel_jobs`, the assertion in
`get_available_resources` holds (no panic) and the returned slots are
exactly the maximum minus the allocation, so available plus allocated
slots never exceed the maximum. -/
theorem claim_C6 (w : Worker)
    (h : slotsSum (w.accepted_jobs ++ w.running_jobs) ≤
      w.settings.worker_max_parallel_jobs) :
    ∃ res, w.get_available_resources = some res ∧
      res.job_slots = w.settings.worker_max_parallel_jobs -
        slotsSum (w.accepted_jobs ++ w.running_jobs) ∧
      res.job_slots + slotsSum (w.accepted_jobs ++ w.running_jobs) ≤
        w.settings.worker_max_parallel_jobs := by
  unfold Worker.get_available_resources
  rw [if_pos h]
  refine ⟨_, rfl, rfl, ?_⟩
  show w.settings.worker_max_parallel_jobs -
      slotsSum (w.accepted_jobs ++ w.running_jobs) +
      slotsSum (w.accepted_jobs ++ w.running_jobs) ≤
    w.settings.worker_max_parallel_jobs
  omega

theorem claim_C6_witness :
    (slotsSum (loadedWorker.accepted_jobs ++ loadedWorker.running_jobs) ≤
      loadedWorker.settings.worker_max_parallel_jobs) ∧
    (∃ res, loadedWorker.get_available_resources = some res ∧
      res.job_slots = loadedWorker.settings.worker_max_parallel_jobs -
        slotsSum (loadedWorker.accepted_jobs ++ loadedWorker.running_jobs) ∧
      res.job_slots +
          slotsSum (loadedWorker.accepted_jobs ++ loadedWorker.running_jobs) ≤
        loadedWorker.settings.worker_max_parallel_jobs) :=
  ⟨by decide, claim_C6 loadedWorker (by decide)⟩

/-- C4: on `OfferJob`, a missing working directory draws `RejectJobOffer`
with the accepted list untouched (the handler returns before any resource
computation); otherwise a fresh resource snapshot is taken and the job is
either pushed onto `accepted_jobs` and accepted, or deferred with the
state untouched, according to `fit_into`. -/
theorem claim_C4 (w : Worker) (is_dir : String → Bool) (job_info : JobInfo) :
    (is_dir job_info.cwd = false →
      w.on_offer_job is_dir job_info =
        some (w, .RejectJobOffer job_info)) ∧
    (is_dir job_info.cwd = true →
      ∀ avail, w.get_available_resources = some avail →
        (job_info.worker_resources.fit_into avail = true →
          w.on_offer_job is_dir job_info =
            some ({ w with accepted_jobs :=
                w.accepted_jobs ++ [WorkerJob.new job_info] },
              .AcceptJobOffer job_info)) ∧
        (job_info.worker_resources.fit_into avail = false →
          w.on_offer_job is_dir job_info =
            some (w, .DeferJobOffer job_info))) := by
  constructor
  · intro hdir
    unfold Worker.on_offer_job
    rw [hdir]
    rfl
  · intro hdir avail havail
    have hra : w.resources_available job_info.worker_resources =
        some (job_info.worker_resources.fit_into avail) := by
      unfold Worker.resources_available
      rw [havail]
      rfl
    constructor
    · intro hfit
      unfold Worker.on_offer_job
      rw [hdir]
      simp only [Bool.not_true, Bool.false_eq_true, if_false, hra, hfit,
        if_true]
    · intro hfit
      unfold Worker.on_offer_job
      rw [hdir]
      simp only [Bool.not_true, Bool.false_eq_true, if_false, hra, hfit]

theorem claim_C4_witness :
    (staticWorker.on_offer_job (fun _ => false) exampleJobInfo =
      some (staticWorker, .RejectJobOffer exampleJobInfo)) ∧
    (staticWorker.on_offer_job (fun _ => true) exampleJobInfo =
      some ({ staticWorker with accepted_jobs :=
          staticWorker.accepted_jobs ++ [WorkerJob.new exampleJobInfo] },
        .AcceptJobOffer exampleJobInfo)) ∧
    (loadedWorker.on_offer_job (fun _ => true) exampleJobInfo =
      some (loadedWorker, .DeferJobOffer exampleJobInfo)) := by
  refine ⟨?_, ?_, ?_⟩
  · exact (claim_C4 staticWorker (fun _ => false) exampleJobInfo).1 rfl
  · exact ((claim_C4 staticWorker (fun _ => true) exampleJobInfo).2 rfl
      { job_slots := 3, cpus := 3, ram_mb := 990 } (by decide)).1 (by decide)
  · exact ((claim_C4 loadedWorker (fun _ => true) exampleJobInfo).2 rfl
      { job_slots := 3, cpus := 0, ram_mb := 800 } (by decide)).2 (by decide)

/-- A worker holding different ids in the two lists: id 5 is accepted but
not running, id 0 is running but not accepted. -/
def mixedWorker : Worker :=
  { staticWorker with
    accepted_jobs := [WorkerJob.new { exampleJobInfo with job_id := 5 }]
    running_jobs :=
      [WorkerJob.new
         { exampleJobInfo with
           status := .running 0 1 "worker1" }] }

/-- C8: a `ConfirmJobOffer` or `WithdrawJobOffer` whose job id is not in
`accepted_jobs`, and a `KillJob` whose job id is not in `running_jobs`
(each handler searches only its own list), returns `Ok` - the connection
survives - and leaves both job lists untouched. -/
theorem claim_C8 (w : Worker) (job_info : JobInfo) (now : Nat)
    (spawn : Except String Unit) :
    ((∀ job ∈ w.accepted_jobs, job.info.job_id ≠ job_info.job_id) →
      w.on_confirm_job_offer spawn now job_info = some (w, []) ∧
      w.on_withdraw_job_offer job_info = (w, [])) ∧
    ((∀ job ∈ w.running_jobs, job.info.job_id ≠ job_info.job_id) →
      w.on_kill_job job_info = (w, [])) := by
  constructor
  · intro hacc
    have hext : extractFirst (fun job => job.info.job_id == job_info.job_id)
        w.accepted_jobs = none := by
      apply extractFirst_eq_none
      intro x hx
      simp only [beq_eq_false_iff_ne, ne_eq]
      exact hacc x hx
    constructor
    · unfold Worker.on_confirm_job_offer
      rw [hext]
    · unfold Worker.on_withdraw_job_offer
      rw [hext]
  · intro hrun
    have hkill := killFirst_eq_none job_info w.running_jobs hrun
    unfold Worker.on_kill_job
    rw [hkill]

theorem claim_C8_witness :
    (mixedWorker.on_confirm_job_offer (Except.ok ()) 0 exampleJobInfo =
      some (mixedWorker, []) ∧
     mixedWorker.on_withdraw_job_offer exampleJobInfo = (mixedWorker, [])) ∧
    mixedWorker.on_kill_job { exampleJobInfo with job_id := 5 } =
      (mixedWorker, []) :=
  ⟨(claim_C8 mixedWorker exampleJobInfo 0 (Except.ok ())).1 (by decide),
   (claim_C8 mixedWorker { exampleJobInfo with job_id := 5 } 0
     (Except.ok ())).2 (by decide)⟩

theorem slotsSum_cons (j : WorkerJob) (l : List WorkerJob) :
    slotsSum (j :: l) = j.info.worker_resources.job_slots + slotsSum l := by
  simp [slotsSum]

theorem slotsSum_nil : slotsSum [] = 0 := rfl

theorem filter_fin_cons_pos (j : WorkerJob) (l : List WorkerJob)
    (hj : j.result.finished = true) :
    (j :: l).filter (fun x => x.result.finished) =
      j :: l.filter (fun x => x.result.finished) := by
  simp [List.filter_cons, hj]

theorem filter_fin_cons_neg (j : WorkerJob) (l : List WorkerJob)
    (hj : j.result.finished = false) :
    (j :: l).filter (fun x => x.result.finished) =
      l.filter (fun x => x.result.finished) := by
  simp [List.filter_cons, hj]

theorem filter_notfin_cons_pos (j : WorkerJob) (l : List WorkerJob)
    (hj : j.result.finished = false) :
    (j :: l).filter (fun x => !x.result.finished) =
      j :: l.filter (fun x => !x.result.finished) := by
  simp [List.filter_cons, hj]

theorem filter_notfin_cons_neg (j : WorkerJob) (l : List WorkerJob)
    (hj : j.result.finished = true) :
    (j :: l).filter (fun x => !x.result.finished) =
      l.filter (fun x => !x.result.finished) := by
  simp [List.filter_cons, hj]

/-- The three messages `update_job_status` sends for one finished job. -/
def finishedJobMessages (name : String) (now : Nat)
    (p : WorkerJob × Resources) : List WorkerToServerMessage :=
  [WorkerToServerMessage.UpdateJobStatus (finalizeJobInfo name now p.1),
   WorkerToServerMessage.UpdateJobResults p.1.info.job_id
     (optText p.1.result.stdout_text) (optText p.1.result.stderr_text),
   WorkerToServerMessage.UpdateResources p.2]

theorem updateJobStatusLoop_spec (settings : WorkerSettings) (name : String)
    (sys : SystemSnapshot) (now : Nat) (accepted : List WorkerJob) :
    ∀ (remaining kept : List WorkerJob),
      slotsSum (accepted ++ (kept ++ remaining)) ≤
        settings.worker_max_parallel_jobs →
      ∃ snaps : List Resources,
        snaps.length =
          (remaining.filter (fun j => j.result.finished)).length ∧
        updateJobStatusLoop settings name sys now accepted kept remaining =
          some (kept ++ remaining.filter (fun j => !j.result.finished),
            ((remaining.filter (fun j => j.result.finished)).zip snaps).flatMap
              (finishedJobMessages name now)) := by
  intro remaining
  induction remaining with
  | nil =>
    intro kept hb
    exact ⟨[], rfl, by simp [updateJobStatusLoop]⟩
  | cons j rest ih =>
    intro kept hb
    have hbsplit : slotsSum accepted + (slotsSum kept +
        (j.info.worker_resources.job_slots + slotsSum rest)) ≤
        settings.worker_max_parallel_jobs := by
      rw [slotsSum_append, slotsSum_append, slotsSum_cons] at hb
      omega
    have hb2 : slotsSum (accepted ++ (kept ++ rest)) ≤
        settings.worker_max_parallel_jobs := by
      rw [slotsSum_append, slotsSum_append]
      omega
    by_cases hj : j.result.finished
    · obtain ⟨res, hres⟩ := getAvailableResources_isSome
        (Worker.mk settings name sys accepted (kept ++ rest)) hb2
      obtain ⟨snaps, hlen, hloop⟩ := ih kept hb2
      refine ⟨res :: snaps, ?_, ?_⟩
      · rw [filter_fin_cons_pos j rest hj]
        simp [hlen]
      · unfold updateJobStatusLoop
        rw [if_pos hj]
        simp only [hres, hloop]
        rw [filter_fin_cons_pos j rest hj, filter_notfin_cons_neg j rest hj]
        simp [finishedJobMessages]
    · have hj2 : j.result.finished = false := Bool.eq_false_iff.mpr hj
      have hb3 : slotsSum (accepted ++ ((kept ++ [j]) ++ rest)) ≤
          settings.worker_max_parallel_jobs := by
        rw [slotsSum_append, slotsSum_append, slotsSum_append, slotsSum_cons,
          slotsSum_nil]
        omega
      obtain ⟨snaps, hlen, hloop⟩ := ih (kept ++ [j]) hb3
      refine ⟨snaps, ?_, ?_⟩
      · rw [filter_fin_cons_neg j rest hj2]
        exact hlen
      · unfold updateJobStatusLoop
        rw [if_neg hj]
        rw [hloop]
        rw [filter_fin_cons_neg j rest hj2,
          filter_notfin_cons_pos j rest hj2]
        rw [List.append_assoc]
        rfl

/-- C5: `update_job_status` removes exactly the finished jobs from
`running_jobs` (unfinished ones stay, in order and unmodified) and, for
each finished job in list order, sends exactly one `UpdateJobStatus`, then
one `UpdateJobResults`, then one `UpdateResources`; the reported status is
`Finished` with the recorded exit code, run time and comment when the job
was `Running`, and is left unchanged when it was `Canceled`.  The
hypothesis is the slot invariant guarding the resource snapshots taken
inside the loop. -/
theorem claim_C5 (w : Worker) (now : Nat)
    (h : slotsSum (w.accepted_jobs ++ w.running_jobs) ≤
      w.settings.worker_max_parallel_jobs) :
    (∃ w2 msgs, w.update_job_status now = some (w2, msgs) ∧
      w2.accepted_jobs = w.accepted_jobs ∧
      w2.running_jobs = w.running_jobs.filter (fun j => !j.result.finished) ∧
      ∃ snaps : List Resources,
        snaps.length =
          (w.running_jobs.filter (fun j => j.result.finished)).length ∧
        msgs =
          ((w.running_jobs.filter (fun j => j.result.finished)).zip
            snaps).flatMap (finishedJobMessages w.worker_name now)) ∧
    (∀ job : WorkerJob, ∀ issued started on_w,
      job.info.status = JobStatus.running issued started on_w →
      finalizeJobInfo w.worker_name now job =
        { job.info with
          status :=
            JobStatus.finished issued started now job.result.exit_code
              w.worker_name job.result.run_time job.result.comment }) ∧
    (∀ job : WorkerJob, ∀ issued canceled_at,
      job.info.status = JobStatus.canceled issued canceled_at →
      finalizeJobInfo w.worker_name now job = job.info) := by
  refine ⟨?_, ?_, ?_⟩
  · obtain ⟨snaps, hlen, hloop⟩ := updateJobStatusLoop_spec w.settings
      w.worker_name w.sys now w.accepted_jobs w.running_jobs [] (by simpa using h)
    refine ⟨{ w with running_jobs :=
        w.running_jobs.filter (fun j => !j.result.finished) }, _,
      ?_, rfl, rfl, snaps, hlen, rfl⟩
    unfold Worker.update_job_status
    rw [hloop, List.nil_append]
    rfl
  · intro job issued started on_w hst
    unfold finalizeJobInfo
    rw [hst]
  · intro job issued canceled_at hst
    unfold finalizeJobInfo
    rw [hst]

/-- A worker with one unfinished and one finished running job, for the C5
witness. -/
def reportingWorker : Worker :=
  { staticWorker with
    accepted_jobs := []
    running_jobs :=
      [WorkerJob.new
         { exampleJobInfo with
           job_id := 1
           status := .running 0 1 "worker1" },
       { WorkerJob.new
           { exampleJobInfo with
             job_id := 2
             status := .running 0 1 "worker1" } with
         result :=
           { finished := true
             exit_code := 7
             run_time := 3
             comment := ""
             stdout_text := "out"
             stderr_text := "" } }] }

theorem claim_C5_witness :
    (slotsSum (reportingWorker.accepted_jobs ++
        reportingWorker.running_jobs) ≤
      reportingWorker.settings.worker_max_parallel_jobs) ∧
    (∃ w2 msgs, reportingWorker.update_job_status 9 = some (w2, msgs) ∧
      w2.accepted_jobs = reportingWorker.accepted_jobs ∧
      w2.running_jobs =
        reportingWorker.running_jobs.filter (fun j => !j.result.finished) ∧
      ∃ snaps : List Resources,
        snaps.length =
          (reportingWorker.running_jobs.filter
            (fun j => j.result.finished)).length ∧
        msgs =
          ((reportingWorker.running_jobs.filter
            (fun j => j.result.finished)).zip snaps).flatMap
            (finishedJobMessages reportingWorker.worker_name 9)) :=
  ⟨by decide, ((claim_C5 reportingWorker 9 (by decide)).1)⟩

/-- C7: when spawning a confirmed job fails, the worker records
`exit_code = -43`, a zero run time and a comment beginning
"Failed to start job: ", marks the job finished, and the normal
status-update path immediately reports it: the reply trace is exactly one
`UpdateJobStatus` carrying a `Finished` status with those recorded values,
followed by `UpdateJobResults` and `UpdateResources` - the handler
returns `Ok` rather than failing the connection.  Hypotheses: the job was
accepted, the confirmation carries a `Running` status, the slot invariant
holds, the other running jobs are unfinished and the job has produced no
output yet. -/
theorem claim_C7 (w : Worker) (now : Nat) (job_info : JobInfo) (e : String)
    (job : WorkerJob) (accepted_rest : List WorkerJob)
    (issued started : Nat) (on_w : String)
    (hx : extractFirst (fun j => j.info.job_id == job_info.job_id)
      w.accepted_jobs = some (job, accepted_rest))
    (hst : job_info.status = JobStatus.running issued started on_w)
    (hslots : slotsSum (w.accepted_jobs ++ w.running_jobs) ≤
      w.settings.worker_max_parallel_jobs)
    (hrun : ∀ j ∈ w.running_jobs, j.result.finished = false)
    (hout : job.result.stdout_text = "") (herr : job.result.stderr_text = "") :
    ∃ res w2, w.on_confirm_job_offer (Except.error e) now job_info =
      some (w2,
        [WorkerToServerMessage.UpdateJobStatus
          { job.info with
            status :=
              JobStatus.finished issued started now (-43) w.worker_name 0
                ("Failed to start job: " ++ e) },
         WorkerToServerMessage.UpdateJobResults job.info.job_id none none,
         WorkerToServerMessage.UpdateResources res]) ∧
      w2.accepted_jobs = accepted_rest ∧
      w2.running_jobs = w.running_jobs := by
  have hslots2 : slotsSum (accepted_rest ++ w.running_jobs) +
      job.info.worker_resources.job_slots ≤
      w.settings.worker_max_parallel_jobs := by
    have := extractFirst_slotsSum _ w.accepted_jobs job accepted_rest hx
    rw [slotsSum_append] at hslots
    rw [slotsSum_append]
    omega
  set job2 : WorkerJob :=
    { job with
      info := { job.info with status := job_info.status }
      result :=
        { job.result with
          finished := true
          exit_code := (-43)
          run_time := 0
          comment := "Failed to start job: " ++ e } } with hjob2
  have hslots3 : slotsSum (accepted_rest ++
      (w.running_jobs ++ ([] ++ [job2]))) ≤
      w.settings.worker_max_parallel_jobs := by
    rw [List.nil_append, slotsSum_append, slotsSum_append, slotsSum_cons,
      slotsSum_nil]
    rw [slotsSum_append] at hslots2
    have hjs : job2.info.worker_resources.job_slots =
        job.info.worker_resources.job_slots := rfl
    rw [hjs]
    omega
  obtain ⟨snaps, hlen, hloop⟩ := updateJobStatusLoop_spec w.settings
    w.worker_name w.sys now accepted_rest (w.running_jobs ++ [job2]) []
    (by simpa using hslots3)
  have hfiltfin : (w.running_jobs ++ [job2]).filter
      (fun j => j.result.finished) = [job2] := by
    rw [List.filter_append]
    have h1 : w.running_jobs.filter (fun j => j.result.finished) = [] := by
      rw [List.filter_eq_nil_iff]
      intro a ha
      simp [hrun a ha]
    rw [h1]
    simp
  have hfiltrun : (w.running_jobs ++ [job2]).filter
      (fun j => !j.result.finished) = w.running_jobs := by
    rw [List.filter_append]
    have h1 : w.running_jobs.filter (fun j => !j.result.finished) =
        w.running_jobs := by
      rw [List.filter_eq_self]
      intro a ha
      simp [hrun a ha]
    rw [h1]
    simp
  rw [hfiltfin] at hlen hloop
  rw [hfiltrun] at hloop
  obtain ⟨res, hsnaps⟩ : ∃ res, snaps = [res] := by
    cases snaps with
    | nil => cases hlen
    | cons a t =>
      cases t with
      | nil => exact ⟨a, rfl⟩
      | cons b t2 => cases hlen
  subst hsnaps
  refine ⟨res, { w with accepted_jobs := accepted_rest }, ?_, rfl, rfl⟩
  unfold Worker.on_confirm_job_offer
  rw [hx]
  show ({ w with
      accepted_jobs := accepted_rest
      running_jobs := w.running_jobs ++ [job2] } :
        Worker).update_job_status now = _
  unfold Worker.update_job_status
  rw [hloop]
  have hfin : finalizeJobInfo w.worker_name now job2 =
      { job.info with
        status :=
          JobStatus.finished issued started now (-43) w.worker_name 0
            ("Failed to start job: " ++ e) } := by
    unfold finalizeJobInfo
    show (match job2.info.status with
      | JobStatus.running issued started _ => _
      | _ => job2.info) = _
    rw [show job2.info.status = job_info.status from rfl, hst]
  rw [show ([job2].zip [res]).flatMap
      (finishedJobMessages w.worker_name now) =
      [WorkerToServerMessage.UpdateJobStatus
        (finalizeJobInfo w.worker_name now job2),
       WorkerToServerMessage.UpdateJobResults job2.info.job_id
         (optText job2.result.stdout_text) (optText job2.result.stderr_text),
       WorkerToServerMessage.UpdateResources res] from rfl]
  rw [hfin]
  have hid : job2.info.job_id = job.info.job_id := rfl
  have hso : job2.result.stdout_text = job.result.stdout_text := rfl
  have hse : job2.result.stderr_text = job.result.stderr_text := rfl
  rw [hid, hso, hse, hout, herr]
  rfl

/-- The worker of the C7 witness: one accepted job whose confirmation will
fail to spawn. -/
def confirmingWorker : Worker :=
  { staticWorker with
    accepted_jobs := [WorkerJob.new exampleJobInfo],
    running_jobs := [] }

theorem claim_C7_witness :
    ∃ res w2,
      confirmingWorker.on_confirm_job_offer (Except.error "boom") 42
        { exampleJobInfo with status := JobStatus.running 5 6 "worker1" } =
      some (w2,
        [WorkerToServerMessage.UpdateJobStatus
          { (WorkerJob.new exampleJobInfo).info with
            status :=
              JobStatus.finished 5 6 42 (-43) confirmingWorker.worker_name 0
                ("Failed to start job: " ++ "boom") },
         WorkerToServerMessage.UpdateJobResults
           (WorkerJob.new exampleJobInfo).info.job_id none none,
         WorkerToServerMessage.UpdateResources res]) ∧
      w2.accepted_jobs = [] ∧
      w2.running_jobs = confirmingWorker.running_jobs :=
  claim_C7 confirmingWorker 42
    { exampleJobInfo with status := JobStatus.running 5 6 "worker1" }
    "boom" (WorkerJob.new exampleJobInfo) [] 5 6 "worker1"
    (by decide) (by decide) (by decide) (by decide) (by decide) (by decide)

/-! ## Claim about the message framing layer -/

/-- C9: the read buffer starts at 32 KiB; a read that fills it entirely
doubles it, while a smaller read leaves it unchanged; in both cases the
bytes read are appended to the message buffer, which is retained across
reads while a message is incomplete; and a successful receive consumes
exactly the bytes of the first complete JSON value (as delimited by the
parser), leaving any following bytes in the message buffer. -/
theorem claim_C9 :
    (∀ pending : List Nat,
      (MessageStream.new pending).read_buffer_len = 32 * 1024) ∧
    (∀ (parse : List Nat → ParseOutcome) (st : MessageStream),
      parse st.msg_buffer = ParseOutcome.eofWhileParsing →
      0 < st.read_buffer_len → st.read_buffer_len ≤ st.pending.length →
      receiveStep parse st = StepResult.again
        { pending := st.pending.drop st.read_buffer_len
          read_buffer_len := st.read_buffer_len * 2
          msg_buffer :=
            st.msg_buffer ++ st.pending.take st.read_buffer_len }) ∧
    (∀ (parse : List Nat → ParseOutcome) (st : MessageStream),
      parse st.msg_buffer = ParseOutcome.eofWhileParsing →
      0 < st.pending.length → st.pending.length < st.read_buffer_len →
      receiveStep parse st = StepResult.again
        { pending := []
          read_buffer_len := st.read_buffer_len
          msg_buffer := st.msg_buffer ++ st.pending }) ∧
    (∀ (parse : List Nat → ParseOutcome) (st : MessageStream) (n : Nat),
      parse st.msg_buffer = ParseOutcome.ok n →
      MessageStream.receive parse st =
        some (ReceiveOutcome.ok (st.msg_buffer.take n),
          { st with msg_buffer := st.msg_buffer.drop n })) := by
  refine ⟨fun _ => rfl, ?_, ?_, ?_⟩
  · intro parse st hp h0 hle
    unfold receiveStep
    rw [hp]
    have hbr : min st.read_buffer_len st.pending.length =
        st.read_buffer_len := Nat.min_eq_left hle
    simp only [hbr]
    rw [if_neg (by omega)]
    simp
  · intro parse st hp h0 hlt
    unfold receiveStep
    rw [hp]
    have hbr : min st.read_buffer_len st.pending.length =
        st.pending.length := Nat.min_eq_right (Nat.le_of_lt hlt)
    simp only [hbr]
    rw [if_neg (by omega)]
    rw [if_neg (by omega)]
    rw [List.drop_length, List.take_length]
  · intro parse st n hp
    have hstep : receiveStep parse st =
        StepResult.done (ReceiveOutcome.ok (st.msg_buffer.take n))
          { st with msg_buffer := st.msg_buffer.drop n } := by
      unfold receiveStep
      rw [hp]
    unfold MessageStream.receive
    show receiveAux parse (st.pending.length + 1) st = _
    unfold receiveAux
    rw [hstep]

/-- A toy parser for the C9 witness: a value is complete exactly when two
bytes are available, and it occupies those two bytes. -/
def parseTwoBytes : List Nat → ParseOutcome := fun bs =>
  if 2 ≤ bs.length then ParseOutcome.ok 2 else ParseOutcome.eofWhileParsing

/-- C9 witness state: empty message buffer, three pending bytes, a
two-byte read buffer - the next read fills the buffer entirely. -/
def streamA : MessageStream :=
  { pending := [1, 2, 3], read_buffer_len := 2, msg_buffer := [] }

/-- C9 witness state: one retained byte of an incomplete message and one
pending byte - the next read does not fill the buffer. -/
def streamB : MessageStream :=
  { pending := [9], read_buffer_len := 2, msg_buffer := [7] }

/-- C9 witness state: a complete two-byte value plus one extra byte are
already buffered. -/
def streamC : MessageStream :=
  { pending := [], read_buffer_len := 2, msg_buffer := [5, 6, 7] }

theorem claim_C9_witness :
    (MessageStream.new [1, 2, 3]).read_buffer_len = 32 * 1024 ∧
    receiveStep parseTwoBytes streamA = StepResult.again
      { pending := streamA.pending.drop streamA.read_buffer_len
        read_buffer_len := streamA.read_buffer_len * 2
        msg_buffer :=
          streamA.msg_buffer ++
            streamA.pending.take streamA.read_buffer_len } ∧
    receiveStep parseTwoBytes streamB = StepResult.again
      { pending := []
        read_buffer_len := streamB.read_buffer_len
        msg_buffer := streamB.msg_buffer ++ streamB.pending } ∧
    MessageStream.receive parseTwoBytes streamC =
      some (ReceiveOutcome.ok (streamC.msg_buffer.take 2),
        { streamC with msg_buffer := streamC.msg_buffer.drop 2 }) :=
  ⟨claim_C9.1 [1, 2, 3],
   claim_C9.2.1 parseTwoBytes streamA (by decide) (by decide) (by decide),
   claim_C9.2.2.1 parseTwoBytes streamB (by decide) (by decide) (by decide),
   claim_C9.2.2.2 parseTwoBytes streamC 2 (by decide)⟩

end Kueue
